import Mathlib

/-!
Shallow embedding of the `pysak` datastore core (`datastore.py`) and proofs
about the claims of its specification.

Conventions of the embedding:

* Python byte strings are `List Nat` (each entry one byte value); unicode keys
  are `List Char`.
* Machine randomness (`os.urandom`, `uuid.uuid4()`) and the wall clock
  (`time.time()`, file mtimes) are passed in as explicit arguments.
* External capabilities used by the codec (`cPickle`, `zlib`, `bz2`,
  `hashlib.sha256`, `Crypto.Cipher.AES` in CFB mode, and the DPAPI
  `cryptData`/`decryptData` pair) are out of scope per the spec and are
  modelled as the fields of an `ExtCap` record; theorems that need their
  contracts (e.g. decompress inverts compress) take those laws as hypotheses.
* Fallible Python code returns `Except PyErr _`; Python `assert` failures,
  `raise Exception(...)` sites and built-in run-time errors (TypeError,
  IndexError, IOError) are distinguished by the `PyErr` constructors.
-/

/-- Error kinds surfaced by the embedded code.  `reservedKey` and
`invalidKey` stand for the two `raise Exception(...)` sites guarding keys;
`assertionError` for Python `assert` failures; `typeError` / `indexError` /
`ioError` for the corresponding built-in run-time errors; `decodeError` for
`cPickle.loads` failing on a garbage buffer. -/
inductive PyErr where
  | assertionError
  | typeError
  | reservedKey
  | invalidKey
  | indexError
  | decodeError
  | ioError
deriving DecidableEq, Repr

/-- Bytes of a Python binary buffer. -/
abbrev Bytes := List Nat

/-- A unicode key, as its character sequence. -/
abbrev Key := List Char

/-- The literal key `id`, reserved for the store identity. -/
def idKey : Key := ['i', 'd']

/-- CompAlgo = util.Enum of `uncompressed zlib bz2` (datastore.py line 59):
members are numbered in order starting at 0. -/
def CompAlgo.uncompressed : Nat := 0

/-- Code of the zlib member of CompAlgo. -/
def CompAlgo.zlib : Nat := 1

/-- Code of the bz2 member of CompAlgo. -/
def CompAlgo.bz2 : Nat := 2

/-- CompAlgo.validate: membership of the value in the enum's codes. -/
def CompAlgo.validate (v : Nat) : Bool := v == 0 || v == 1 || v == 2

/-- CryptAlgo = util.Enum of `unencrypted AES` (datastore.py line 60). -/
def CryptAlgo.unencrypted : Nat := 0

/-- Code of the AES member of CryptAlgo. -/
def CryptAlgo.AES : Nat := 1

/-- CryptAlgo.validate. -/
def CryptAlgo.validate (v : Nat) : Bool := v == 0 || v == 1

/-- ProtectAlgo = util.Enum of `unprotected DPAPI` (datastore.py line 61). -/
def ProtectAlgo.unprotected : Nat := 0

/-- Code of the DPAPI member of ProtectAlgo. -/
def ProtectAlgo.DPAPI : Nat := 1

/-- ProtectAlgo.validate. -/
def ProtectAlgo.validate (v : Nat) : Bool := v == 0 || v == 1

/-- External capabilities consumed by the codec, per the spec's out-of-scope
list.  `pickle`/`unpickle` model `cPickle.dumps(obj, protocol=2)` and
`cPickle.loads` (the latter returning `none` where `loads` would raise on a
buffer that is not a valid pickle); `zlibC lvl`/`zlibD` model
`zlib.compress(buf, lvl)`/`zlib.decompress`; likewise `bz2C`/`bz2D`;
`sha256` models `hashlib.sha256(pwd).digest()`; `aesEnc key iv`/`aesDec key iv`
model the `Crypto.Cipher.AES.new(key, MODE_CFB, iv)` encrypt/decrypt pair;
`protect`/`unprotect` model `dpapi.cryptData`/`dpapi.decryptData`. -/
structure ExtCap (Obj : Type) where
  pickle : Obj → Bytes
  unpickle : Bytes → Option Obj
  zlibC : Nat → Bytes → Bytes
  zlibD : Bytes → Bytes
  bz2C : Nat → Bytes → Bytes
  bz2D : Bytes → Bytes
  sha256 : Bytes → Bytes
  aesEnc : Bytes → Bytes → Bytes → Bytes
  aesDec : Bytes → Bytes → Bytes → Bytes
  protect : Bytes → Bytes
  unprotect : Bytes → Bytes

/-- Header byte packed by `DataStore.setobj` (line 203):
`(comp_algo << 5) | (crypt_algo << 2) | protect_algo`. -/
def headerByte (c k p : Nat) : Nat := (c <<< 5) ||| (k <<< 2) ||| p

/-- Compression code extracted by `DataStore.getobj` (line 129):
`(header & 0b11100000) >> 5`. -/
def hdrComp (h : Nat) : Nat := (h &&& 224) >>> 5

/-- Encryption code extracted by `DataStore.getobj` (line 130):
`(header & 0b00011100) >> 2`. -/
def hdrCrypt (h : Nat) : Nat := (h &&& 28) >>> 2

/-- Protection code extracted by `DataStore.getobj` (line 131):
`header & 0b00000011`. -/
def hdrProt (h : Nat) : Nat := h &&& 3

variable {Obj : Type}

/-- Compression step of `DataStore.setobj` (lines 184-188). -/
def compStep (ext : ExtCap Obj) (c lvl : Nat) (buf : Bytes) : Bytes :=
  if c = CompAlgo.zlib then ext.zlibC lvl buf
  else if c = CompAlgo.bz2 then ext.bz2C lvl buf
  else buf

/-- Encryption step of `DataStore.setobj` (lines 190-195): fresh 16-byte IV
(passed in as `iv`), key = sha256 of the password, and the IV is prepended to
the ciphertext. -/
def cryptStep (ext : ExtCap Obj) (k : Nat) (pwd iv : Bytes) (buf : Bytes) : Bytes :=
  if k = CryptAlgo.AES then iv ++ ext.aesEnc (ext.sha256 pwd) iv buf else buf

/-- The buffer built by `DataStore.setobj` just before the protection step
(lines 181-195): pickle, then compress, then encrypt. -/
def encPayload (ext : ExtCap Obj) (c lvl k : Nat) (pwd iv : Bytes) (o : Obj) : Bytes :=
  cryptStep ext k pwd iv (compStep ext c lvl (ext.pickle o))

/-- The full envelope built by `DataStore.setobj` (lines 181-204): the
protection step, when enabled, is applied to the payload only, and the
2-byte header is prepended afterwards, in the clear. -/
def encodeObj (ext : ExtCap Obj) (c lvl k : Nat) (pwd : Bytes) (p : Nat)
    (iv : Bytes) (o : Obj) : Bytes :=
  let body := encPayload ext c lvl k pwd iv o
  let body2 := if p = ProtectAlgo.DPAPI then ext.protect body else body
  0 :: headerByte c k p :: body2

/-- Decompress-and-unpickle tail of `DataStore.getobj` (lines 151-158). -/
def decompressLoad (ext : ExtCap Obj) (c : Nat) (buf : Bytes) : Except PyErr Obj :=
  let buf2 := if c = CompAlgo.zlib then ext.zlibD buf
              else if c = CompAlgo.bz2 then ext.bz2D buf
              else buf
  match ext.unpickle buf2 with
  | some o => .ok o
  | none => .error .decodeError

/-- Decryption step of `DataStore.getobj` (lines 140-149): the call password
falls back to the store password; `assert crypt_pwd` fails on `None` or an
empty password; the IV is the first 16 bytes of the buffer. -/
def decryptPhase (ext : ExtCap Obj) (sp cp : Option Bytes) (k : Nat) (buf : Bytes) :
    Except PyErr Bytes :=
  if k = CryptAlgo.AES then
    match (match cp with | some b => some b | none => sp) with
    | none => .error .assertionError
    | some pwd =>
      if pwd.isEmpty then .error .assertionError
      else .ok (ext.aesDec (ext.sha256 pwd) (buf.take 16) (buf.drop 16))
  else .ok buf

/-- Body of `DataStore.getobj` after the header has been read (lines 129-158):
validate the three codes, unprotect, decrypt, decompress, unpickle. -/
def decodeAfterHeader (ext : ExtCap Obj) (sp cp : Option Bytes) (c k p : Nat)
    (buf : Bytes) : Except PyErr Obj :=
  if !(CompAlgo.validate c) then .error .assertionError
  else if !(CryptAlgo.validate k) then .error .assertionError
  else if !(ProtectAlgo.validate p) then .error .assertionError
  else
    let buf1 := if p = ProtectAlgo.DPAPI then ext.unprotect buf else buf
    match decryptPhase ext sp cp k buf1 with
    | .error e => .error e
    | .ok buf2 => decompressLoad ext c buf2

/-- Decode pipeline of `DataStore.getobj` on the raw buffer (lines 119-158):
an empty buffer is the falsy `not buf` case yielding `(None, None)`;
otherwise byte 0 must be protocol version 0 (`assert proto_ver == 0`), byte 1
is the flags byte (reading it on a 1-byte buffer raises IndexError), and the
remainder is handled by `decodeAfterHeader`. -/
def decodeBuf (ext : ExtCap Obj) (sp cp : Option Bytes) (buf : Bytes) :
    Except PyErr (Option Obj) :=
  match buf with
  | [] => .ok none
  | [v] => if v = 0 then .error .indexError else .error .assertionError
  | v :: h :: rest =>
    if v ≠ 0 then .error .assertionError
    else (decodeAfterHeader ext sp cp (hdrComp h) (hdrCrypt h) (hdrProt h) rest).map some

/-- Store-level default encoding configuration, the `_priv` attributes set by
`DataStore.__init__` (lines 91-96). -/
structure StoreCfg where
  comp_algo : Nat
  comp_level : Nat
  crypt_algo : Nat
  crypt_pwd : Option Bytes
  protect_algo : Nat
deriving DecidableEq, Repr

/-- Validation performed by `DataStore.__init__` (lines 84-87): comp algo,
comp level (1..9, unconditionally), crypt algo and protect algo are asserted;
the password is not validated at construction time. -/
def DataStore.initCfg (c lvl k : Nat) (pwd : Option Bytes) (p : Nat) :
    Except PyErr StoreCfg :=
  if !(CompAlgo.validate c) then .error .assertionError
  else if lvl < 1 || 9 < lvl then .error .assertionError
  else if !(CryptAlgo.validate k) then .error .assertionError
  else if !(ProtectAlgo.validate p) then .error .assertionError
  else .ok ⟨c, lvl, k, pwd, p⟩

/-- Python truthiness of an optional byte string: `None` and the empty string
are falsy. -/
def truthy (o : Option Bytes) : Bool :=
  match o with
  | none => false
  | some b => !b.isEmpty

/-- The encoding parameters of one `setobj` call after defaulting and
validation (lines 162-179).  `lvl` stays whatever was passed (possibly `none`
or out of range) when the effective compression algorithm is `uncompressed`,
because the source only validates it inside the `comp_algo != uncompressed`
branch. -/
structure Resolved where
  c : Nat
  lvl : Option Nat
  k : Nat
  pwd : Option Bytes
  p : Nat
deriving DecidableEq, Repr

/-- Crypt/protect half of the parameter resolution of `DataStore.setobj`
(lines 170-179). -/
def resolveCryptProt (cfg : StoreCfg) (ka : Option Nat) (kp : Option Bytes)
    (pa : Option Nat) (c : Nat) (lvl : Option Nat) : Except PyErr Resolved :=
  let k := ka.getD cfg.crypt_algo
  if !(CryptAlgo.validate k) then .error .assertionError
  else if k = CryptAlgo.unencrypted then
    let p := pa.getD cfg.protect_algo
    if !(ProtectAlgo.validate p) then .error .assertionError
    else .ok ⟨c, lvl, k, kp, p⟩
  else
    let pw := match kp with | some b => some b | none => cfg.crypt_pwd
    if !(truthy pw) then .error .assertionError
    else
      let p := pa.getD cfg.protect_algo
      if !(ProtectAlgo.validate p) then .error .assertionError
      else .ok ⟨c, lvl, k, pw, p⟩

/-- Parameter resolution of `DataStore.setobj` (lines 162-179): per-call
overrides default to the store configuration; the compression level is
validated only when the effective compression algorithm is not
`uncompressed`. -/
def setobjResolve (cfg : StoreCfg) (ca cl : Option Nat) (ka : Option Nat)
    (kp : Option Bytes) (pa : Option Nat) : Except PyErr Resolved :=
  let c := ca.getD cfg.comp_algo
  if !(CompAlgo.validate c) then .error .assertionError
  else if c = CompAlgo.uncompressed then
    resolveCryptProt cfg ka kp pa c cl
  else
    let l := cl.getD cfg.comp_level
    if l < 1 || 9 < l then .error .assertionError
    else resolveCryptProt cfg ka kp pa c (some l)

/-- Result of a backend `getdata` call as seen by `DataStore.getobj`.
`found buf t` is the `(data, update_time)` tuple; `bareNone` is the plain
`None` that `Dir.getdata` returns (by falling off the end of the function)
when the key has no file — not a tuple. -/
inductive GetDataRet where
  | found : Bytes → Nat → GetDataRet
  | bareNone : GetDataRet
deriving DecidableEq, Repr

/-- Body of `DataStore.getobj` (lines 109-158) applied to the outcome of
`self.getdata(key)`.  The tuple unpacking `buf, upd_time = self.getdata(key)`
raises TypeError when `getdata` returned a bare `None`; an empty buffer is
falsy and yields the `(None, None)` result; otherwise the envelope is
decoded.  `sp` is the store password `self._crypt_pwd`, `cp` the per-call
`crypt_pwd` argument. -/
def getobjFrom (ext : ExtCap Obj) (sp cp : Option Bytes)
    (r : Except PyErr GetDataRet) : Except PyErr (Option (Obj × Nat)) :=
  match r with
  | .error e => .error e
  | .ok .bareNone => .error .typeError
  | .ok (.found buf t) =>
    match decodeBuf ext sp cp buf with
    | .error e => .error e
    | .ok none => .ok none
    | .ok (some o) => .ok (some (o, t))

/-- Strip a single leading slash from a key, as both `setdata`
implementations do (lines 386-387 and 439-440). -/
def stripSlash (k : Key) : Key :=
  match k with
  | [] => []
  | c :: rest => if c = '/' then rest else c :: rest

/-- The state of a directory-backend store: the regular files under the root,
keyed by their `/`-joined path relative to the root, with content and
modification time.  The identity file is the entry with key `id`.
Directories carry no data of their own and are left implicit. -/
structure DirState where
  files : List (Key × Bytes × Nat)
deriving DecidableEq, Repr

/-- First file with the given relative path. -/
def lookupFile : List (Key × Bytes × Nat) → Key → Option (Bytes × Nat)
  | [], _ => none
  | (k, v, t) :: rest, q => if k = q then some (v, t) else lookupFile rest q

/-- Dir.__init__ (lines 399-407): create the root if needed and, when no `id`
file exists, write one containing a fresh random hex identity (`u`, with the
write time `now`).  An existing identity is left untouched.  Note the base
constructor is called with no arguments, so a Dir store always has the
default encoding configuration. -/
def Dir.init (st : DirState) (u : Bytes) (now : Nat) : DirState :=
  match lookupFile st.files idKey with
  | some _ => st
  | none => ⟨(idKey, u, now) :: st.files⟩

/-- Dir.getid (lines 409-412): read the `id` file (IOError if absent). -/
def Dir.getid (st : DirState) : Except PyErr Bytes :=
  match lookupFile st.files idKey with
  | some (v, _) => .ok v
  | none => .error .ioError

/-- The `if prefix and not key.startswith(prefix): continue` filter of
`Dir.listkeys` (line 465): `None` and the empty string are falsy, so they
disable filtering; otherwise plain string prefix match. -/
def pfxKeep : Option Key → Key → Bool
  | none, _ => true
  | some p, k => p.isEmpty || p.isPrefixOf k

/-- Dir.listkeys (lines 458-469): walk every regular file under the root,
map its relative path to its mtime, keep only keys passing the prefix filter,
then pop the identity entry `id`. -/
def Dir.listkeys (st : DirState) (pfx : Option Key) : List (Key × Nat) :=
  (st.files.filter (fun kv => pfxKeep pfx kv.1 && kv.1 != idKey)).map
    (fun kv => (kv.1, kv.2.2))

/-- Dir.getupdtime (lines 426-430): reserved-key check, then the file's
mtime (OSError, modelled `ioError`, if the file does not exist).  The key is
used verbatim — no slash stripping. -/
def Dir.getupdtime (st : DirState) (key : Key) : Except PyErr Nat :=
  if key = idKey then .error .reservedKey
  else match lookupFile st.files key with
    | some (_, t) => .ok t
    | none => .error .ioError

/-- Dir.getdata (lines 417-424): reserved-key check; then membership of the
verbatim key in `listkeys()`; on a hit, return the file content and its
update time; on a miss the function falls off the end and returns a bare
`None`.  (The `lookupFile` miss branch is unreachable: membership in
`listkeys` guarantees the file exists.) -/
def Dir.getdata (st : DirState) (key : Key) : Except PyErr GetDataRet :=
  if key = idKey then .error .reservedKey
  else if (Dir.listkeys st none).any (fun kv => kv.1 == key) then
    match lookupFile st.files key with
    | some (v, t) => .ok (.found v t)
    | none => .error .ioError
  else .ok .bareNone

/-- Dir.setdata (lines 432-456): reserved-key check on the raw key, empty-key
check, then a single leading `/` is stripped; the stripped key is split on
`/`, all but the last token become directories and the last the file name, so
the written file's path relative to the root is exactly the stripped key; the
file is written (overwriting in place) and its new mtime (`now`) returned. -/
def Dir.setdata (st : DirState) (key : Key) (d : Bytes) (now : Nat) :
    Except PyErr (DirState × Nat) :=
  if key = idKey then .error .reservedKey
  else if key.isEmpty then .error .invalidKey
  else
    let k2 := stripSlash key
    .ok (⟨(k2, d, now) :: st.files.filter (fun kv => kv.1 != k2)⟩, now)

/-- DataStore.getobj specialised to the directory backend.  `cfg` is the
store configuration (always the defaults for a real `Dir`, which passes no
arguments to the base constructor), `cp` the per-call password. -/
def Dir.getobj (ext : ExtCap Obj) (cfg : StoreCfg) (cp : Option Bytes)
    (st : DirState) (key : Key) : Except PyErr (Option (Obj × Nat)) :=
  getobjFrom ext cfg.crypt_pwd cp (Dir.getdata st key)

/-- DataStore.setobj specialised to the directory backend: resolve the
parameters, build the envelope (`iv` is the fresh random IV), and hand the
bytes to `Dir.setdata`. -/
def Dir.setobj (ext : ExtCap Obj) (cfg : StoreCfg) (st : DirState) (key : Key)
    (o : Obj) (ca cl ka : Option Nat) (kp : Option Bytes) (pa : Option Nat)
    (iv : Bytes) (now : Nat) : Except PyErr (DirState × Nat) :=
  match setobjResolve cfg ca cl ka kp pa with
  | .error e => .error e
  | .ok r => Dir.setdata st key (encodeObj ext r.c (r.lvl.getD 0) r.k (r.pwd.getD []) r.p iv o) now

/-- The rows of the relational backend's key/value table `tbl_DB_table`
(`id INTEGER PRIMARY KEY, key TEXT NOT NULL UNIQUE, value BLOB NOT NULL,
update_time INTEGER NOT NULL`). -/
abbrev DBState := List (Nat × Key × Bytes × Nat)

/-- The Python call `cls.select(conn, **kwargs)` made by `SqliteTable.exists`
(line 248) — and likewise every direct `DB_table.select(self._conn, ...)`
call in class `DB` (lines 360, 368, 377, 392) — omits the required positional
argument `cols` of `SqliteTable.select(cls, conn, cols, **kwargs)` (line 233),
so Python raises `TypeError: select() takes exactly 3 arguments (2 given)`
before any query is built or executed.  (The module's own working caller,
`datastore_test.py`, passes `cols` explicitly.) -/
def DB_selectNoCols {α : Type} : Except PyErr α := .error .typeError

/-- SqliteTable.update with `insert_missing=True` as invoked from
`DB.setdata` (line 389): it first evaluates
`cls.exists(conn, **key_cols)`, and `exists` calls `select` without `cols`
(see `DB_selectNoCols`), so the call raises TypeError and neither the
`INSERT` nor the `UPDATE` statement ever runs. -/
def DB_upsert (st : DBState) (k : Key) (d : Bytes) (now : Nat) :
    Except PyErr DBState :=
  match (DB_selectNoCols : Except PyErr Bool) with
  | .error e => .error e
  | .ok b => if b then .ok st else .ok ((0, k, d, now) :: st)

/-- DB.__init__ (lines 352-357), after the base-class parameter validation
(`DataStore.initCfg`): connect (idempotent table creation), then
`if not DB_table.exists(self._conn, key='id')` — which raises TypeError (see
`DB_selectNoCols`), so the identity row is never inserted and construction
always fails. -/
def DB.init (st : DBState) (u : Bytes) (now : Nat) : Except PyErr DBState :=
  match (DB_selectNoCols : Except PyErr Bool) with
  | .error e => .error e
  | .ok b => if b then .ok st else .ok ((0, idKey, u, now) :: st)

/-- DB.getid (lines 359-360): `DB_table.select(self._conn, key='id')` without
`cols` — TypeError. -/
def DB.getid (_st : DBState) : Except PyErr Bytes := DB_selectNoCols

/-- DB.getdata (lines 365-372): reserved-key check first; then
`DB_table.select(self._conn, key=key)` without `cols` — TypeError.  (The
`return None, None` branch for an absent key, line 372, is unreachable.) -/
def DB.getdata (_st : DBState) (key : Key) : Except PyErr GetDataRet :=
  if key = idKey then .error .reservedKey
  else DB_selectNoCols

/-- DB.getupdtime (lines 374-377): reserved-key check first; then `select`
without `cols` — TypeError. -/
def DB.getupdtime (_st : DBState) (key : Key) : Except PyErr Nat :=
  if key = idKey then .error .reservedKey
  else DB_selectNoCols

/-- DB.setdata (lines 379-389): reserved-key check, empty-key check, strip a
single leading `/`, then the upsert (which raises TypeError, see
`DB_upsert`).  The method body has no `return` statement, so even a
successful upsert would make the call return `None` — hence the `Option Nat`
in the result, which would be `none` on the (unreachable) success path. -/
def DB.setdata (st : DBState) (key : Key) (d : Bytes) (now : Nat) :
    Except PyErr (DBState × Option Nat) :=
  if key = idKey then .error .reservedKey
  else if key.isEmpty then .error .invalidKey
  else
    match DB_upsert st (stripSlash key) d now with
    | .error e => .error e
    | .ok st2 => .ok (st2, none)

/-- DB.listkeys (lines 391-392): the `prefix` parameter is accepted but never
used by the body, which runs `DB_table.select(self._conn)` without `cols` —
TypeError.  (Had the select call been well-formed, it would return every row
of the table, including the identity row `id`, with no prefix filtering.) -/
def DB.listkeys (_st : DBState) (_pfx : Option Key) :
    Except PyErr (List (Key × Nat)) := DB_selectNoCols

/-- DataStore.getobj specialised to the relational backend. -/
def DB.getobj (ext : ExtCap Obj) (cfg : StoreCfg) (cp : Option Bytes)
    (st : DBState) (key : Key) : Except PyErr (Option (Obj × Nat)) :=
  getobjFrom ext cfg.crypt_pwd cp (DB.getdata st key)

/-- DataStore.setobj specialised to the relational backend. -/
def DB.setobj (ext : ExtCap Obj) (cfg : StoreCfg) (st : DBState) (key : Key)
    (o : Obj) (ca cl ka : Option Nat) (kp : Option Bytes) (pa : Option Nat)
    (iv : Bytes) (now : Nat) : Except PyErr (DBState × Option Nat) :=
  match setobjResolve cfg ca cl ka kp pa with
  | .error e => .error e
  | .ok r => DB.setdata st key (encodeObj ext r.c (r.lvl.getD 0) r.k (r.pwd.getD []) r.p iv o) now

/-- A concrete external-capability instance used to evaluate the embedded
code on explicit inputs: objects are natural numbers, pickling is the
singleton buffer, the compressors prepend a tag byte, AES-CFB is byte
reversal, protection prepends the byte 7.  Each pair satisfies the
capability's inversion contract. -/
def extC : ExtCap Nat where
  pickle := fun n => [n]
  unpickle := fun b => match b with | [n] => some n | _ => none
  zlibC := fun lvl b => lvl :: b
  zlibD := fun b => b.tail
  bz2C := fun lvl b => (lvl + 100) :: b
  bz2D := fun b => b.tail
  sha256 := fun b => b
  aesEnc := fun _ _ b => b.reverse
  aesDec := fun _ _ b => b.reverse
  protect := fun b => 7 :: b
  unprotect := fun b => b.tail

/-- The default store configuration (`DataStore.__init__` defaults:
uncompressed, level 5, unencrypted, no password, unprotected). -/
def cfg0 : StoreCfg := ⟨0, 5, 0, none, 0⟩

/-- A freshly initialised directory store whose identity file holds the
bytes `[7, 7]`, written at time 0. -/
def st0c : DirState := Dir.init ⟨[]⟩ [7, 7] 0

/-- A 16-byte IV of zeros. -/
def iv0 : Bytes := List.replicate 16 0

theorem compValidate_cases {c : Nat} (h : CompAlgo.validate c = true) :
    c = 0 ∨ c = 1 ∨ c = 2 := by
  have h2 := h
  simp [CompAlgo.validate] at h2
  tauto

theorem cryptValidate_cases {k : Nat} (h : CryptAlgo.validate k = true) :
    k = 0 ∨ k = 1 := by
  simpa [CryptAlgo.validate] using h

theorem protValidate_cases {p : Nat} (h : ProtectAlgo.validate p = true) :
    p = 0 ∨ p = 1 := by
  simpa [ProtectAlgo.validate] using h

/-- The three bit fields packed by `headerByte` are recovered exactly by the
decode-side extractions, for in-range codes. -/
theorem header_fields {c k p : Nat} (hc : c ≤ 2) (hk : k ≤ 1) (hp : p ≤ 1) :
    hdrComp (headerByte c k p) = c ∧ hdrCrypt (headerByte c k p) = k ∧
      hdrProt (headerByte c k p) = p := by
  interval_cases c <;> interval_cases k <;> interval_cases p <;>
    exact ⟨by decide, by decide, by decide⟩

/-- Codec round trip: decoding an envelope with the parameters that produced
it recovers the object.  The hypotheses are the inversion contracts of the
external capabilities (pickle, zlib, bz2, AES-CFB, DPAPI), validity of the
three algorithm codes, a password for the AES case, and a 16-byte IV. -/
theorem decode_encode {Obj : Type} (ext : ExtCap Obj)
    (hpick : ∀ o, ext.unpickle (ext.pickle o) = some o)
    (hz : ∀ lvl b, ext.zlibD (ext.zlibC lvl b) = b)
    (hb : ∀ lvl b, ext.bz2D (ext.bz2C lvl b) = b)
    (ha : ∀ kk iv b, ext.aesDec kk iv (ext.aesEnc kk iv b) = b)
    (hp : ∀ b, ext.unprotect (ext.protect b) = b)
    (c lvl k p : Nat) (pwd iv : Bytes) (o : Obj) (sp : Option Bytes)
    (hc : CompAlgo.validate c = true) (hk : CryptAlgo.validate k = true)
    (hpv : ProtectAlgo.validate p = true)
    (hpwd : k = 1 → pwd ≠ []) (hiv : iv.length = 16) :
    decodeBuf ext sp (some pwd) (encodeObj ext c lvl k pwd p iv o) =
      .ok (some o) := by
  have hcle : c ≤ 2 := by rcases compValidate_cases hc with rfl | rfl | rfl <;> norm_num
  have hkle : k ≤ 1 := by rcases cryptValidate_cases hk with rfl | rfl <;> norm_num
  have hple : p ≤ 1 := by rcases protValidate_cases hpv with rfl | rfl <;> norm_num
  obtain ⟨e1, e2, e3⟩ := header_fields hcle hkle hple
  rcases cryptValidate_cases hk with rfl | rfl
  · rcases protValidate_cases hpv with rfl | rfl <;>
      rcases compValidate_cases hc with rfl | rfl | rfl <;>
        simp_all [encodeObj, decodeBuf, decodeAfterHeader, decryptPhase,
          decompressLoad, encPayload, cryptStep, compStep, CompAlgo.zlib,
          CompAlgo.bz2, CompAlgo.uncompressed, CryptAlgo.AES,
          ProtectAlgo.DPAPI, CompAlgo.validate, CryptAlgo.validate,
          ProtectAlgo.validate, Except.map, hz, hb, hp, hpick]
  · have hpw : pwd ≠ [] := hpwd rfl
    have hpe : pwd.isEmpty = false := by simp [List.isEmpty_iff, hpw]
    rcases protValidate_cases hpv with rfl | rfl <;>
      rcases compValidate_cases hc with rfl | rfl | rfl <;>
        simp_all [encodeObj, decodeBuf, decodeAfterHeader, decryptPhase,
          decompressLoad, encPayload, cryptStep, compStep, CompAlgo.zlib,
          CompAlgo.bz2, CompAlgo.uncompressed, CryptAlgo.AES,
          ProtectAlgo.DPAPI, CompAlgo.validate, CryptAlgo.validate,
          ProtectAlgo.validate, Except.map, hz, hb, ha, hp, hpick,
          List.take_left' hiv, List.drop_left' hiv]

/-- Resolution of a `setobj` call that overrides every parameter: with a
valid compression code (level in range when compressing), a valid encryption
code (non-empty password when AES) and a valid protection code, resolution
succeeds and returns exactly the overrides. -/
theorem setobjResolve_overrides (cfg : StoreCfg) (c lvl k p : Nat) (pwd : Bytes)
    (hc : CompAlgo.validate c = true) (hlvl : c ≠ 0 → 1 ≤ lvl ∧ lvl ≤ 9)
    (hk : CryptAlgo.validate k = true) (hpwd : k = 1 → pwd ≠ [])
    (hpv : ProtectAlgo.validate p = true) :
    setobjResolve cfg (some c) (some lvl) (some k) (some pwd) (some p) =
      .ok ⟨c, some lvl, k, some pwd, p⟩ := by
  have hcp : resolveCryptProt cfg (some k) (some pwd) (some p) c (some lvl) =
      .ok ⟨c, some lvl, k, some pwd, p⟩ := by
    rcases cryptValidate_cases hk with rfl | rfl
    · simp [resolveCryptProt, CryptAlgo.validate, CryptAlgo.unencrypted, hpv]
    · have hpw : pwd ≠ [] := hpwd rfl
      have hpe : pwd.isEmpty = false := by simp [List.isEmpty_iff, hpw]
      simp [resolveCryptProt, CryptAlgo.validate, CryptAlgo.unencrypted,
        truthy, hpe, hpv]
  by_cases hc0 : c = CompAlgo.uncompressed
  · subst hc0
    simpa [setobjResolve, CompAlgo.validate, CompAlgo.uncompressed] using hcp
  · have hrange := hlvl (by simpa [CompAlgo.uncompressed] using hc0)
    have h1 : ¬(lvl < 1 || 9 < lvl) = true := by
      simp only [Bool.or_eq_true, decide_eq_true_eq]
      omega
    simp only [setobjResolve, Option.getD_some, hc, Bool.not_true,
      Bool.false_eq_true, if_false, hc0]
    rw [Bool.eq_false_iff.mpr h1]
    simpa using hcp

/-- Filtering away the entries of one key leaves lookups of any other key
unchanged. -/
theorem lookupFile_filter_ne (l : List (Key × Bytes × Nat)) {q r : Key}
    (h : r ≠ q) :
    lookupFile (l.filter (fun kv => kv.1 != q)) r = lookupFile l r := by
  induction l with
  | nil => rfl
  | cons kv rest ih =>
    obtain ⟨k1, v1, t1⟩ := kv
    by_cases hk1 : k1 = q
    · subst hk1
      have : r ≠ k1 := h
      simp [List.filter_cons, lookupFile, Ne.symm this, ih]
    · simp only [List.filter_cons, bne_iff_ne, ne_eq, hk1, not_false_eq_true,
        decide_True, if_true]
      by_cases hr : k1 = r
      · subst hr; simp [lookupFile]
      · simp [lookupFile, hr, ih]

/-- C1 (amended round-trip law): for every object serializable by the codec
and every valid combination of parameters (compression algorithm with level
1-9 when compressing, encryption with a non-empty password when AES,
protection), `getobj` after `setobj` on the directory backend returns the
original object, given the inversion contracts of the external capabilities.
(The claim's "through any backend" fails on the relational backend, whose
`setobj` always raises TypeError — see the counterexample.) -/
theorem c1_dir_roundtrip (ext : ExtCap Obj) (cfg : StoreCfg) (st : DirState)
    (key : Key) (o : Obj) (c lvl k p : Nat) (pwd iv : Bytes) (now : Nat)
    (hpick : ∀ o, ext.unpickle (ext.pickle o) = some o)
    (hz : ∀ lvl b, ext.zlibD (ext.zlibC lvl b) = b)
    (hb : ∀ lvl b, ext.bz2D (ext.bz2C lvl b) = b)
    (ha : ∀ kk iv b, ext.aesDec kk iv (ext.aesEnc kk iv b) = b)
    (hp : ∀ b, ext.unprotect (ext.protect b) = b)
    (hc : CompAlgo.validate c = true) (hlvl : c ≠ 0 → 1 ≤ lvl ∧ lvl ≤ 9)
    (hk : CryptAlgo.validate k = true) (hpwd : k = 1 → pwd ≠ [])
    (hpv : ProtectAlgo.validate p = true) (hiv : iv.length = 16)
    (hkid : key ≠ idKey) (hkne : key ≠ []) (hks : stripSlash key = key) :
    ∃ st2,
      Dir.setobj ext cfg st key o (some c) (some lvl) (some k) (some pwd)
          (some p) iv now = .ok (st2, now) ∧
      Dir.getobj ext cfg (some pwd) st2 key = .ok (some (o, now)) := by
  refine ⟨⟨(key, encodeObj ext c lvl k pwd p iv o, now) ::
    st.files.filter (fun kv => kv.1 != key)⟩, ?_, ?_⟩
  · have hemp : key.isEmpty = false := by
      cases key with
      | nil => exact absurd rfl hkne
      | cons a l => rfl
    simp [Dir.setobj, setobjResolve_overrides cfg c lvl k p pwd hc hlvl hk hpwd hpv,
      Dir.setdata, hkid, hemp, hks]
  · have hdec := decode_encode ext hpick hz hb ha hp c lvl k p pwd iv o
      cfg.crypt_pwd hc hk hpv hpwd hiv
    simp [Dir.getobj, Dir.getdata, Dir.listkeys, getobjFrom, hkid, pfxKeep,
      lookupFile, List.filter_cons, bne_iff_ne, hdec]

/-- C1 counterexample: the round-trip law as claimed quantifies over every
backend, but on the relational backend even `setobj` with the default
parameters fails with TypeError (the key-existence check inside the upsert
calls `select` without its required `cols` argument), so no round trip is
possible there. -/
theorem c1_db_roundtrip_fails :
    DB.setobj extC cfg0 [] ['k'] 42 none none none none none iv0 5 =
      .error .typeError := rfl

/-- Witness for `c1_dir_roundtrip`: a concrete round trip through the
directory backend with zlib level 3, AES with password `[5]`, and DPAPI
protection. -/
theorem c1_dir_roundtrip_witness :
    ∃ st2,
      Dir.setobj extC cfg0 st0c ['k'] 42 (some 1) (some 3) (some 1)
          (some [5]) (some 1) iv0 9 = .ok (st2, 9) ∧
      Dir.getobj extC cfg0 (some [5]) st2 ['k'] = .ok (some (42, 9)) :=
  c1_dir_roundtrip extC cfg0 st0c ['k'] 42 1 3 1 1 [5] iv0 9
    (fun _ => rfl) (fun _ _ => rfl) (fun _ _ => rfl)
    (fun _ _ b => List.reverse_reverse b) (fun _ => rfl)
    (by decide) (fun _ => by decide) (by decide) (fun _ => by decide)
    (by decide) (by decide) (by decide) (by decide) (by decide)

/-- C2: on the relational backend, `set_data` never performs the upsert: the
`insert_missing` path first calls `SqliteTable.exists`, which invokes
`select` without its required `cols` argument, so the call raises TypeError
before any record is created or overwritten — shown here on the claim's own
example key. -/
theorem c2_db_setdata_typeerror :
    DB.setdata ([] : DBState) ['p', 'r', 'o', 'f', 'i', 'l', 'e'] [0, 0, 128] 7 =
      .error .typeError := rfl

/-- C3 counterexample: with protection enabled the stored bytes are not
`protect(version || flags || payload)` — the header is prepended in the
clear after the payload alone is protected. -/
theorem c3_protect_not_outermost :
    encodeObj extC 0 5 0 [] 1 iv0 42 ≠
      extC.protect (0 :: headerByte 0 0 1 :: encPayload extC 0 5 0 [] iv0 42) := by
  decide

/-- C3 (amended): the protection step wraps only the payload (bytes 2..end).
On encode, `protect` is applied to the compressed/encrypted payload and the
version and flags bytes are prepended afterwards in the clear; on decode the
version and flags are read first and `unprotect` is applied only to the
remaining bytes. -/
theorem c3_protect_wraps_payload_only (ext : ExtCap Obj) (c lvl k : Nat)
    (pwd iv : Bytes) (o : Obj) (sp cp : Option Bytes) (buf : Bytes) :
    encodeObj ext c lvl k pwd 1 iv o =
      0 :: headerByte c k 1 :: ext.protect (encPayload ext c lvl k pwd iv o) ∧
    decodeAfterHeader ext sp cp c k 1 buf =
      decodeAfterHeader ext sp cp c k 0 (ext.unprotect buf) := by
  constructor
  · simp [encodeObj, ProtectAlgo.DPAPI]
  · by_cases hC : CompAlgo.validate c <;> by_cases hK : CryptAlgo.validate k <;>
      simp [decodeAfterHeader, hC, hK, ProtectAlgo.validate, ProtectAlgo.DPAPI]

/-- C4: every data operation called with the key exactly `id` — `getdata`,
`getupdtime`, `setdata`, and hence `getobj` and `setobj` (whenever parameter
resolution succeeds) — fails with the reserved-key error on both backends,
before any read or write is performed (the guard is the first statement of
each method). -/
theorem c4_reserved_key_id (ext : ExtCap Obj) (cfg : StoreCfg) (st : DirState)
    (stD : DBState) (d : Bytes) (now : Nat) (cp : Option Bytes) (o : Obj)
    (ca cl ka : Option Nat) (kp : Option Bytes) (pa : Option Nat) (iv : Bytes)
    (r : Resolved) (hres : setobjResolve cfg ca cl ka kp pa = .ok r) :
    Dir.getdata st idKey = .error .reservedKey ∧
    Dir.getupdtime st idKey = .error .reservedKey ∧
    Dir.setdata st idKey d now = .error .reservedKey ∧
    DB.getdata stD idKey = .error .reservedKey ∧
    DB.getupdtime stD idKey = .error .reservedKey ∧
    DB.setdata stD idKey d now = .error .reservedKey ∧
    Dir.getobj ext cfg cp st idKey = .error .reservedKey ∧
    DB.getobj ext cfg cp stD idKey = .error .reservedKey ∧
    Dir.setobj ext cfg st idKey o ca cl ka kp pa iv now = .error .reservedKey ∧
    DB.setobj ext cfg stD idKey o ca cl ka kp pa iv now = .error .reservedKey := by
  refine ⟨by simp [Dir.getdata], by simp [Dir.getupdtime], by simp [Dir.setdata],
    by simp [DB.getdata], by simp [DB.getupdtime], by simp [DB.setdata],
    by simp [Dir.getobj, Dir.getdata, getobjFrom],
    by simp [DB.getobj, DB.getdata, getobjFrom],
    by simp [Dir.setobj, hres, Dir.setdata],
    by simp [DB.setobj, hres, DB.setdata]⟩

/-- Witness for `c4_reserved_key_id` at concrete stores and arguments, with
the default configuration resolving successfully. -/
theorem c4_reserved_key_id_witness :
    Dir.getdata st0c idKey = .error .reservedKey ∧
    Dir.getupdtime st0c idKey = .error .reservedKey ∧
    Dir.setdata st0c idKey [1] 2 = .error .reservedKey ∧
    DB.getdata ([] : DBState) idKey = .error .reservedKey ∧
    DB.getupdtime ([] : DBState) idKey = .error .reservedKey ∧
    DB.setdata ([] : DBState) idKey [1] 2 = .error .reservedKey ∧
    Dir.getobj extC cfg0 none st0c idKey = .error .reservedKey ∧
    DB.getobj extC cfg0 none ([] : DBState) idKey = .error .reservedKey ∧
    Dir.setobj extC cfg0 st0c idKey 5 none none none none none [] 2 =
      .error .reservedKey ∧
    DB.setobj extC cfg0 ([] : DBState) idKey 5 none none none none none [] 2 =
      .error .reservedKey :=
  c4_reserved_key_id extC cfg0 st0c [] [1] 2 none 5 none none none none none []
    ⟨0, none, 0, none, 0⟩ rfl

/-- Membership in `Dir.listkeys`: a key/time pair is listed iff some file of
the state has that path and mtime, the path is not the identity file `id`,
and the path passes the prefix filter. -/
theorem mem_listkeys_iff (st : DirState) (pfx : Option Key) (k0 : Key) (t0 : Nat) :
    (k0, t0) ∈ Dir.listkeys st pfx ↔
      (∃ d, (k0, d, t0) ∈ st.files) ∧ k0 ≠ idKey ∧ pfxKeep pfx k0 = true := by
  simp only [Dir.listkeys, List.mem_map, List.mem_filter, Bool.and_eq_true,
    bne_iff_ne, ne_eq, Prod.mk.injEq]
  constructor
  · rintro ⟨⟨k1, d1, t1⟩, ⟨hin, hkeep, hne⟩, hk, ht⟩
    subst hk
    subst ht
    exact ⟨⟨d1, hin⟩, hne, hkeep⟩
  · rintro ⟨⟨d1, hin⟩, hne, hkeep⟩
    exact ⟨⟨k0, d1, t0⟩, ⟨hin, hkeep, hne⟩, rfl, rfl⟩

/-- The prefix filter accepts a key iff the prefix is a list prefix of it
(the falsy empty prefix disables filtering, and the empty list is a prefix of
everything, so the two coincide). -/
theorem pfxKeep_some_iff (p k : Key) : pfxKeep (some p) k = true ↔ p <+: k := by
  simp only [pfxKeep, Bool.or_eq_true, List.isEmpty_iff,
    List.isPrefixOf_iff_prefix]
  constructor
  · rintro (rfl | h)
    · exact List.nil_prefix
    · exact h
  · intro h
    exact Or.inr h

/-- C5 (amended): on the directory backend `listkeys` never lists the
identity key `id`, and with a prefix argument it lists exactly the store's
non-identity keys having that string prefix; on the relational backend
`listkeys` instead raises TypeError (it calls `select` without the required
`cols` argument; its body also ignores the prefix parameter and would select
every row, including the identity row). -/
theorem c5_dir_listkeys_spec (st : DirState) (pfx : Option Key) (p0 k0 : Key)
    (t0 : Nat) (stD : DBState) (pfx2 : Option Key) :
    (∀ t, (idKey, t) ∉ Dir.listkeys st pfx) ∧
    ((k0, t0) ∈ Dir.listkeys st (some p0) ↔
      (∃ d, (k0, d, t0) ∈ st.files) ∧ k0 ≠ idKey ∧ p0 <+: k0) ∧
    DB.listkeys stD pfx2 = .error .typeError := by
  refine ⟨?_, ?_, rfl⟩
  · intro t hmem
    rcases (mem_listkeys_iff st pfx idKey t).1 hmem with ⟨_, hne, _⟩
    exact hne rfl
  · rw [mem_listkeys_iff, pfxKeep_some_iff]

/-- C6: reading a genuinely absent key is an error on both backends, not the
documented `(None, None)` result: `Dir.getdata` falls off the end and
returns a bare `None`, which `getobj` then fails to unpack into
`buf, upd_time` (TypeError), and `DB.getdata` raises TypeError inside its
mis-called `select` before its `return None, None` line can run. -/
theorem c6_absent_key_typeerror :
    Dir.getobj extC cfg0 none st0c ['m'] = .error .typeError ∧
    Dir.getdata st0c ['m'] = .ok .bareNone ∧
    DB.getdata ([] : DBState) ['m'] = .error .typeError := by
  refine ⟨rfl, rfl, rfl⟩

/-- C7 counterexample: a data operation can overwrite the store identity.  On
a freshly initialised directory store whose identity is `[7, 7]`,
`setdata("/id", ...)` passes the reserved-key check (the raw key is `/id`),
is then normalised to `id` by the slash stripping, and overwrites the
identity file: `getid` afterwards returns the written data. -/
theorem c7_identity_overwritten :
    Dir.getid st0c = .ok [7, 7] ∧
    (Dir.setdata st0c ['/', 'i', 'd'] [9] 5).map (fun pr => Dir.getid pr.1) =
      .ok (.ok [9]) := by
  exact ⟨rfl, rfl⟩

/-- C7 (amended): on the directory backend, constructing a store over a
medium with no identity generates and persists one, `getid` returns it,
re-construction never regenerates it, and `setdata` on any key whose
slash-stripped form differs from `id` preserves it (only keys normalising to
`id`, such as `/id`, can overwrite it — see the counterexample); on the
relational backend, construction itself fails with TypeError before the
identity row can be created. -/
theorem c7_dir_identity_stable (st : DirState) (stD : DBState) (u u2 d : Bytes)
    (t0 t2 t3 : Nat) (k : Key)
    (hno : lookupFile st.files idKey = none)
    (hk : stripSlash k ≠ idKey) (hkid : k ≠ idKey) (hkne : k ≠ []) :
    Dir.getid (Dir.init st u t0) = .ok u ∧
    Dir.init (Dir.init st u t0) u2 t2 = Dir.init st u t0 ∧
    (∃ st2, Dir.setdata (Dir.init st u t0) k d t3 = .ok (st2, t3) ∧
      Dir.getid st2 = .ok u) ∧
    DB.init stD u t0 = .error .typeError := by
  have hinit : Dir.init st u t0 = ⟨(idKey, u, t0) :: st.files⟩ := by
    simp [Dir.init, hno]
  have hemp : k.isEmpty = false := by
    cases k with
    | nil => exact absurd rfl hkne
    | cons a l => rfl
  refine ⟨?_, ?_, ?_, rfl⟩
  · simp [hinit, Dir.getid, lookupFile]
  · rw [hinit]
    simp [Dir.init, lookupFile]
  · refine ⟨⟨(stripSlash k, d, t3) ::
      ((idKey, u, t0) :: st.files).filter (fun kv => kv.1 != stripSlash k)⟩,
      ?_, ?_⟩
    · simp [hinit, Dir.setdata, hkid, hemp]
    · have hfilter := lookupFile_filter_ne ((idKey, u, t0) :: st.files)
        (q := stripSlash k) (r := idKey) (Ne.symm hk)
      simp only [Dir.getid, lookupFile, hk, if_false, hfilter]
      simp [lookupFile]

/-- Witness for `c7_dir_identity_stable` on an empty medium, identity
`[3, 4]`, and the ordinary key `a`. -/
theorem c7_dir_identity_stable_witness :
    Dir.getid (Dir.init ⟨[]⟩ [3, 4] 0) = .ok [3, 4] ∧
    Dir.init (Dir.init ⟨[]⟩ [3, 4] 0) [8] 2 = Dir.init ⟨[]⟩ [3, 4] 0 ∧
    (∃ st2, Dir.setdata (Dir.init ⟨[]⟩ [3, 4] 0) ['a'] [9] 3 = .ok (st2, 3) ∧
      Dir.getid st2 = .ok [3, 4]) ∧
    DB.init ([] : DBState) [3, 4] 0 = .error .typeError :=
  c7_dir_identity_stable ⟨[]⟩ [] [3, 4] [8] [9] 0 2 3 ['a'] rfl
    (by decide) (by decide) (by decide)

/-- C8: `set_data` returns the new update time only on the directory
backend.  On the relational backend the call raises TypeError (mis-called
`select` inside the upsert's existence check) — and its body has no `return`
statement, so even a successful write would return `None` rather than the
timestamp promised by the module's own interface docstring. -/
theorem c8_setdata_return :
    DB.setdata ([] : DBState) ['a'] [1] 3 = .error .typeError ∧
    (Dir.setdata st0c ['a'] [1] 3).map Prod.snd = .ok 3 := by
  exact ⟨rfl, rfl⟩

/-- C9 counterexample: a `setobj` call that supplies an out-of-range
compression level (50) together with the `uncompressed` algorithm is not
rejected: parameter resolution succeeds (the level is only validated inside
the `comp_algo != uncompressed` branch) and the write goes through. -/
theorem c9_uncompressed_level_not_validated :
    setobjResolve cfg0 (some 0) (some 50) none none none =
      .ok ⟨0, some 50, 0, none, 0⟩ ∧
    (Dir.setobj extC cfg0 st0c ['a'] 42 (some 0) (some 50) none none none
      [] 3).map Prod.snd = .ok 3 := by
  exact ⟨rfl, rfl⟩

/-- C9 (amended): store construction validates the compression level 1-9
unconditionally (regardless of the compression algorithm, and even when that
algorithm code is itself invalid the construction still fails); but
`setobj` validates the level only when the effective compression algorithm
is not `uncompressed`: with `uncompressed` an out-of-range level resolves
successfully, while with `zlib` it is rejected. -/
theorem c9_comp_level_validation (c lvl k : Nat) (pwd : Option Bytes) (p : Nat)
    (hout : lvl < 1 ∨ 9 < lvl) :
    DataStore.initCfg c lvl k pwd p = .error .assertionError ∧
    (∀ l2, setobjResolve cfg0 (some 0) (some l2) none none none =
      .ok ⟨0, some l2, 0, none, 0⟩) ∧
    setobjResolve cfg0 (some 1) (some lvl) none none none =
      .error .assertionError := by
  have hrange : (lvl < 1 || 9 < lvl) = true := by
    simp only [Bool.or_eq_true, decide_eq_true_eq]
    omega
  refine ⟨?_, fun l2 => rfl, ?_⟩
  · by_cases hc : CompAlgo.validate c
    · rcases hout with h | h <;> simp [DataStore.initCfg, hc, h]
    · simp [DataStore.initCfg, hc]
  · rcases hout with h | h <;>
      simp [setobjResolve, CompAlgo.validate, CompAlgo.uncompressed, h]

/-- Witness for `c9_comp_level_validation`: level 50 with the uncompressed
and zlib algorithms. -/
theorem c9_comp_level_validation_witness :
    DataStore.initCfg 0 50 0 none 0 = .error .assertionError ∧
    (∀ l2, setobjResolve cfg0 (some 0) (some l2) none none none =
      .ok ⟨0, some l2, 0, none, 0⟩) ∧
    setobjResolve cfg0 (some 1) (some 50) none none none =
      .error .assertionError :=
  c9_comp_level_validation 0 50 0 none 0 (Or.inr (by decide))

/-- C10 counterexample: on the relational backend the claimed
write-then-read behaviour does not occur at all — `set_data("/a/b", ...)`
raises TypeError (mis-called `select` inside the upsert), so nothing is
stored and no subsequent `get_data` can find the record. -/
theorem c10_db_slash_roundtrip_fails :
    DB.setdata ([] : DBState) ['/', 'a', '/', 'b'] [5] 2 = .error .typeError := rfl

/-- C10 (amended): leading-slash stripping is applied only on writes, not on
reads, as the claim says — but demonstrable only on the directory backend:
after `set_data('/a/b', v)` the record is stored under `a/b`, `get_data('a/b')`
finds it, and `get_data('/a/b')` (the key used verbatim) does not; on the
relational backend `set_data` raises TypeError before storing anything
(although it, too, strips the slash before the failing call). -/
theorem c10_dir_slash_semantics (st : DirState) (stD : DBState) (k : Key)
    (d : Bytes) (t : Nat)
    (hkid : k ≠ idKey) (_hkne : k ≠ [])
    (hclean : ∀ e ∈ st.files, stripSlash e.1 = e.1) :
    ∃ st2, Dir.setdata st ('/' :: k) d t = .ok (st2, t) ∧
      Dir.getdata st2 k = .ok (.found d t) ∧
      Dir.getdata st2 ('/' :: k) = .ok .bareNone ∧
      DB.setdata stD ('/' :: k) d t = .error .typeError := by
  have hsid : ('/' :: k) ≠ idKey := by
    intro h
    injection h with h1 _
    exact absurd h1 (by decide)
  have hstrip : stripSlash ('/' :: k) = k := by simp [stripSlash]
  have hck : ('/' :: k) ≠ k := List.cons_ne_self '/' k
  refine ⟨⟨(k, d, t) :: st.files.filter (fun kv => kv.1 != k)⟩, ?_, ?_, ?_, rfl⟩
  · simp [Dir.setdata, hsid, hstrip]
  · simp [Dir.getdata, Dir.listkeys, hkid, pfxKeep, lookupFile,
      List.filter_cons, bne_iff_ne]
  · have hany : (Dir.listkeys
        ⟨(k, d, t) :: st.files.filter (fun kv => kv.1 != k)⟩ none).any
          (fun kv => kv.1 == ('/' :: k)) = false := by
      rw [List.any_eq_false]
      rintro ⟨k1, t1⟩ hmem
      rw [mem_listkeys_iff] at hmem
      obtain ⟨⟨d1, hin⟩, _, _⟩ := hmem
      simp only [beq_iff_eq]
      intro hk1
      subst hk1
      simp only [List.mem_cons, Prod.mk.injEq] at hin
      rcases hin with ⟨h1, _⟩ | hin
      · exact hck h1
      · have hmem2 := List.mem_of_mem_filter hin
        have := hclean _ hmem2
        rw [hstrip] at this
        exact hck this.symm
    simp [Dir.getdata, hsid, hany]

/-- Witness for `c10_dir_slash_semantics`: writing `/a/b` on a fresh
directory store, then reading `a/b` and `/a/b`. -/
theorem c10_dir_slash_semantics_witness :
    ∃ st2, Dir.setdata st0c ('/' :: ['a', '/', 'b']) [5] 2 = .ok (st2, 2) ∧
      Dir.getdata st2 ['a', '/', 'b'] = .ok (.found [5] 2) ∧
      Dir.getdata st2 ('/' :: ['a', '/', 'b']) = .ok .bareNone ∧
      DB.setdata ([] : DBState) ('/' :: ['a', '/', 'b']) [5] 2 =
        .error .typeError :=
  c10_dir_slash_semantics st0c [] ['a', '/', 'b'] [5] 2 (by decide) (by decide)
    (by decide)

/-- C5 counterexample: on the relational backend `listkeys` does not return
a mapping at all — it raises TypeError (mis-called `select`), here on a
store state that does contain an identity row and a user row. -/
theorem c5_db_listkeys_raises :
    DB.listkeys [(0, idKey, [1], 0), (1, ['a'], [2], 1)] (some ['a']) =
      .error .typeError := rfl
